import Mathlib

/-!
Verification of the memo-invoice reconciliation core of the SBT transport
billing application. The definitions below are a shallow embedding of the
TypeScript sources: `src/components/forms/NewTripForm.tsx` (the invoice
form), the memo list controller, and the app-level print coordination.
Monetary amounts are modelled as integers (the source stores them as
numeric strings read back through `parseFloat`; the claims under study
concern only sums, differences and signs of amounts, which the integer
model preserves).
-/

namespace SBT

/-- Invoice status from `types.ts`: Draft, Finalized or Paid. -/
inductive InvoiceStatus where
  | Draft
  | Finalized
  | Paid
deriving DecidableEq, Repr

/-- A trip memo record (`MemoData` in `types.ts`). `trips_total_amt` and
`trips_balance` are numeric strings in the source, read through
`parseFloat`; they are modelled as the amounts those strings denote. -/
structure MemoData where
  trips_memo_no : String
  customers_name : String
  trips_vehicle_no : String
  trip_operated_date1 : String
  trips_total_amt : Int
  trips_balance : Int
deriving DecidableEq, Repr

/-- An invoice (`Invoice` in `types.ts`). `id` is `none` for an unsaved
draft (the source uses `Partial<Invoice>` without an `id`). -/
structure Invoice where
  id : Option Nat
  invoice_no : String
  invoice_date : String
  customer_name : String
  memo_nos : List String
  total_amount : Int
  amount_paid : Int
  balance : Int
  status : InvoiceStatus
deriving DecidableEq, Repr

/-- The `allMemos` lookup (`Map<string, MemoData>` in the form): a finite
map from memo number to memo record, absent keys yielding `none`. -/
def MemoLookup : Type := String → Option MemoData

/-- Builds the `allMemos` map as `loadInitialData` does:
`memosData.forEach(memo => memosMap.set(memo.trips_memo_no, memo))`.
A later entry with the same number overwrites an earlier one, so lookup
returns the last matching record. -/
def buildMemoMap (memos : List MemoData) : MemoLookup :=
  fun k => memos.reverse.find? (fun m => m.trips_memo_no == k)

/-- The sum inside `calculateTotals`:
`memo_nos.reduce((sum, memoNo) => sum + parseFloat(allMemos.get(memoNo)?.trips_total_amt || '0'), 0)`.
A number missing from the lookup contributes zero. -/
def memoTotal (lookup : MemoLookup) (memoNos : List String) : Int :=
  memoNos.foldl
    (fun sum memoNo =>
      sum + (match lookup memoNo with
             | some memo => memo.trips_total_amt
             | none => 0))
    0

/-- `calculateTotals` from `NewTripForm.tsx`: recomputes `total_amount`
from the current selection and the memo lookup, and `balance` as that
total minus `amount_paid`. -/
def calculateTotals (lookup : MemoLookup) (inv : Invoice) : Invoice :=
  let total := memoTotal lookup inv.memo_nos
  let amountPaid := inv.amount_paid
  let balance := total - amountPaid
  { inv with total_amount := total, balance := balance }

/-- `handleMemoSelection` from `NewTripForm.tsx`: toggling on appends the
number to `memo_nos`; toggling off filters out every equal number. -/
def handleMemoSelection (inv : Invoice) (memoNo : String) (isSelected : Bool) : Invoice :=
  let currentMemos := inv.memo_nos
  let newMemos :=
    if isSelected then currentMemos ++ [memoNo]
    else currentMemos.filter (fun m => m ≠ memoNo)
  { inv with memo_nos := newMemos }

/-- Folds a list of decimal digit characters into a natural number;
`none` when the list is empty or holds a non-digit. -/
def parseDigits (cs : List Char) : Option Nat :=
  if cs.isEmpty then none
  else
    cs.foldl
      (fun acc c =>
        match acc with
        | none => none
        | some n => if c.isDigit then some (10 * n + (c.toNat - 48)) else none)
      (some 0)

/-- Modelled JS builtin: `parseFloat`, restricted to integer decimal
literals of the form `[-]digits` (the integer amount model cannot carry a
fractional part); `none` stands for `NaN`, every other input shape is
mapped to `none` as well. On inputs of the supported shape this agrees
with `parseFloat` in the source. -/
def parseFloatModel (s : String) : Option Int :=
  match s.toList with
  | '-' :: rest => (parseDigits rest).map (fun n => -(n : Int))
  | cs => (parseDigits cs).map (fun n => (n : Int))

/-- The `amount_paid` input's `onChange` handler:
`setInvoice(p => ({...p, amount_paid: parseFloat(e.target.value) || 0}))`.
A `NaN` parse (modelled as `none`) falls back to `0`. -/
def setAmountPaid (inv : Invoice) (raw : String) : Invoice :=
  { inv with amount_paid := (parseFloatModel raw).getD 0 }

/-- The user edits that change the totals' inputs: toggling a memo
checkbox and typing into the amount-paid field. -/
inductive FormEvent where
  | toggleMemo (memoNo : String) (isSelected : Bool)
  | setAmountPaidRaw (raw : String)
deriving DecidableEq, Repr

/-- One user edit followed by the totals recomputation: the `useEffect`
on `calculateTotals` re-runs whenever `memo_nos` or `amount_paid`
changes, so each such edit is immediately followed by `calculateTotals`. -/
def formStep (lookup : MemoLookup) (inv : Invoice) : FormEvent → Invoice
  | .toggleMemo memoNo isSelected => calculateTotals lookup (handleMemoSelection inv memoNo isSelected)
  | .setAmountPaidRaw raw => calculateTotals lookup (setAmountPaid inv raw)

/-- The per-memo amount the form reads from the lookup: the record's
`trips_total_amt` when present, zero when absent. -/
def lookupAmt (lookup : MemoLookup) (memoNo : String) : Int :=
  ((lookup memoNo).map MemoData.trips_total_amt).getD 0

/-- Modelled from the spec: `getUninvoicedMemosForCustomer` lives in
`services/googleScriptMock.ts`, which is not among the sources. Per §6 of
the spec it is the collaborator-side filter returning the given
customer's memos that are not linked to any persisted invoice. -/
def getUninvoicedMemosForCustomer (memos : List MemoData) (invoices : List Invoice)
    (customerName : String) : List MemoData :=
  memos.filter (fun m =>
    m.customers_name == customerName &&
    !(invoices.any (fun i => i.memo_nos.contains m.trips_memo_no)))

/-- The body of the `forEach` that augments `displayMemos` while editing:
`if (!displayMemos.some(m => m.trips_memo_no === memoNo)) { const memo = allMemos.get(memoNo); if (memo) displayMemos.push(memo); }`. -/
def displayStep (lookup : MemoLookup) (ds : List MemoData) (memoNo : String) : List MemoData :=
  if ds.any (fun m => m.trips_memo_no == memoNo) then ds
  else
    match lookup memoNo with
    | some memo => ds ++ [memo]
    | none => ds

/-- The `displayMemos` computation in `NewTripForm.tsx`: start from the
fetched `availableMemos`; when editing an existing invoice (`invoice.id`
present), append each linked memo number's record found in `allMemos`
unless a record with that number is already displayed. -/
def displayMemos (availableMemos : List MemoData) (lookup : MemoLookup)
    (inv : Invoice) : List MemoData :=
  if inv.id.isSome then inv.memo_nos.foldl (displayStep lookup) availableMemos
  else availableMemos

/-- The checkbox state of a displayed memo row:
`checked={invoice.memo_nos?.includes(memo.trips_memo_no)}`. -/
def memoChecked (inv : Invoice) (memo : MemoData) : Bool :=
  inv.memo_nos.contains memo.trips_memo_no

/-- The validation guard at the top of `handleSave`:
`if (!invoice.customer_name || !invoice.invoice_date || (invoice.memo_nos || []).length === 0)`.
Returns the toast message shown when validation fails, `none` when the
draft may be written. The source shows one fixed combined message
whichever condition failed. -/
def validateSaveCode (inv : Invoice) : Option String :=
  if inv.customer_name = "" ∨ inv.invoice_date = "" ∨ inv.memo_nos.length = 0 then
    some ("Please select a customer, date, and at least one memo.")
  else none

/-- The specific validation reasons named by the spec (§4.1,
`ValidationError{missingCustomer, missingDate, noMemosSelected}`). -/
inductive ValReason where
  | missingCustomer
  | missingDate
  | noMemosSelected
deriving DecidableEq, Repr

/-- Modelled from the spec, for comparison with `validateSaveCode`:
`validateForSave` (§4.1) reports the specific failing reason — missing
customer, missing date, or no memos selected — checking in that order. -/
def validateForSaveSpec (inv : Invoice) : Option ValReason :=
  if inv.customer_name = "" then some .missingCustomer
  else if inv.invoice_date = "" then some .missingDate
  else if inv.memo_nos.length = 0 then some .noMemosSelected
  else none

/-- A write request handed to the store during save: `addInvoice` for a
draft with no id, `updateInvoice` for a persisted invoice. -/
inductive StoreWrite where
  | addInvoice (inv : Invoice)
  | updateInvoice (inv : Invoice)
deriving DecidableEq, Repr

/-- The store's response to an attempted write (the `await` either
resolves or throws). -/
inductive StoreResult where
  | success
  | failure
deriving DecidableEq, Repr

/-- Everything observable about one run of `handleSave`: the in-memory
draft afterwards, the toasts raised (message, kind), the writes attempted
against the store, and whether `onSaveSuccess` (navigation back to the
list) was invoked. -/
structure SaveOutcome where
  invoiceAfter : Invoice
  toasts : List (String × String)
  writes : List StoreWrite
  navigatedToList : Bool
deriving DecidableEq, Repr

/-- `handleSave` from `NewTripForm.tsx`, with the store's response as a
parameter. On validation failure: one error toast, no write, no
navigation. Otherwise one create-or-update write is attempted; on store
failure the draft is untouched, a failure toast is raised and the form
stays put; on success a success toast is raised and `onSaveSuccess`
navigates back to the list. `handleSave` never mutates the draft. -/
def handleSave (inv : Invoice) (store : StoreResult) : SaveOutcome :=
  match validateSaveCode inv with
  | some msg =>
      { invoiceAfter := inv, toasts := [(msg, "error")], writes := [],
        navigatedToList := false }
  | none =>
      let w := if inv.id.isSome then StoreWrite.updateInvoice inv else StoreWrite.addInvoice inv
      match store with
      | .success =>
          { invoiceAfter := inv,
            toasts := [((if inv.id.isSome then ("Invoice updated successfully!")
                         else ("Invoice created successfully!")), "success")],
            writes := [w], navigatedToList := true }
      | .failure =>
          { invoiceAfter := inv, toasts := [("Failed to save invoice.", "error")],
            writes := [w], navigatedToList := false }

/-- `handleCustomerChange` from `NewTripForm.tsx`, returning the updated
draft and the new `availableMemos`. `if (invoice.id) return;` blocks any
change while editing a persisted invoice; otherwise the customer name is
set, the selection cleared, and the uninvoiced memos re-fetched for the
new customer (an empty name clears the available list instead). -/
def handleCustomerChange (memos : List MemoData) (invoices : List Invoice)
    (inv : Invoice) (avail : List MemoData) (customerName : String) :
    Invoice × List MemoData :=
  if inv.id.isSome then (inv, avail)
  else
    let inv2 := { inv with customer_name := customerName, memo_nos := ([] : List String) }
    if customerName ≠ "" then
      (inv2, getUninvoicedMemosForCustomer memos invoices customerName)
    else (inv2, [])

/-- Events acting on the print coordinator (the `useEffect` in
`NewTripForm.tsx` that runs once loading has finished in download mode).
The timer and signal events model the platform (`setTimeout` expiry and
the `afterprint` event); `teardown` is the React effect cleanup. -/
inductive PrintEvent where
  | firePrintTimer
  | fireAfterprint
  | fireOnPrintedTimer
  | teardown
deriving DecidableEq, Repr

/-- The print coordinator's observable state: whether the `afterprint`
listener is registered, whether the 300 ms `window.print` timer and the
100 ms post-signal timer are pending, how many times the `onPrinted`
callback has run, and whether the effect has been cleaned up. -/
structure PrintState where
  listenerRegistered : Bool
  printTimerPending : Bool
  onPrintedTimerPending : Bool
  printedCount : Nat
  tornDown : Bool
deriving DecidableEq, Repr

/-- The state right after the print effect body runs (load finished,
`printOnLoad` set): `handleAfterPrint` registered via `addEventListener`
and the 300 ms `window.print` timer scheduled. -/
def printInit : PrintState :=
  { listenerRegistered := true, printTimerPending := true,
    onPrintedTimerPending := false, printedCount := 0, tornDown := false }

/-- One step of the print coordinator. A timer only fires while pending;
the `afterprint` handler runs only while registered, and its first action
is `removeEventListener` on itself before scheduling the 100 ms
`onPrinted` timer. The cleanup (`teardown`) runs `clearTimeout(printTimer)`
and `removeEventListener` — it does not clear the 100 ms timer, which is
scheduled inside `handleAfterPrint` and never stored for cleanup. -/
def printStep (s : PrintState) : PrintEvent → PrintState
  | .firePrintTimer =>
      if s.printTimerPending then { s with printTimerPending := false } else s
  | .fireAfterprint =>
      if s.listenerRegistered then
        { s with listenerRegistered := false, onPrintedTimerPending := true }
      else s
  | .fireOnPrintedTimer =>
      if s.onPrintedTimerPending then
        { s with onPrintedTimerPending := false, printedCount := s.printedCount + 1 }
      else s
  | .teardown =>
      if s.tornDown then s
      else { s with tornDown := true, printTimerPending := false, listenerRegistered := false }

/-- Runs the print coordinator over a sequence of events. -/
def printRun (s : PrintState) (evs : List PrintEvent) : PrintState :=
  evs.foldl printStep s

/-- One `Map.set(memoNo, invoiceNo)` on the invoicing map, modelled on a
function: the new binding shadows any earlier one for the same key. -/
def mapSet (acc : String → Option String) (memoNo invoiceNo : String) :
    String → Option String :=
  fun k => if k == memoNo then some invoiceNo else acc k

/-- Registers one invoice into the invoicing map:
`invoice.memo_nos.forEach(memoNo => newInvoiceMap.set(memoNo, invoice.invoice_no))`. -/
def invoiceMapAdd (i : Invoice) (acc : String → Option String) :
    String → Option String :=
  i.memo_nos.foldl (fun acc2 memoNo => mapSet acc2 memoNo i.invoice_no) acc

/-- The invoicing map built by `fetchData` in the memo list controller by
scanning every invoice's `memo_nos`; a later invoice overwrites an
earlier binding. -/
def buildInvoiceMap (invoices : List Invoice) : String → Option String :=
  invoices.foldl (fun acc i => invoiceMapAdd i acc) (fun _ => none)

/-- What the memo list row renders for one memo: the invoiced badge, and
the Edit/Delete buttons' `disabled` flags and `title` (reason) texts, as
computed from `invoiceMap.get(memo.trips_memo_no)`. -/
structure RowActions where
  isInvoiced : Bool
  statusBadge : String
  editDisabled : Bool
  editTitle : String
  deleteDisabled : Bool
  deleteTitle : String
deriving DecidableEq, Repr

/-- The memo list row for one memo (`MemoCRUD` in `src/unnamed/part_001`):
`const invoiceNo = invoiceMap.get(memo.trips_memo_no); const isInvoiced = !!invoiceNo;`
with `disabled={isInvoiced}` and the already-invoiced reason as `title`
on both Edit and Delete. -/
def renderRow (invoiceMap : String → Option String) (memo : MemoData) : RowActions :=
  let invoiceNo := invoiceMap memo.trips_memo_no
  let isInvoiced := invoiceNo.isSome
  { isInvoiced := isInvoiced
    statusBadge := invoiceNo.getD ("Uninvoiced")
    editDisabled := isInvoiced
    editTitle := if isInvoiced then ("Cannot edit a memo that is part of an invoice.") else ("Edit Memo")
    deleteDisabled := isInvoiced
    deleteTitle := if isInvoiced then ("Cannot delete a memo that is part of an invoice.") else ("Delete Memo") }

/-- A request the memo list controller can make of the store. (Only the
delete confirmation ever calls the store from a row action.) -/
inductive StoreCall where
  | deleteMemo (memoNo : String)
deriving DecidableEq, Repr

/-- The memo list controller's state: the pending delete-confirmation
modal, the store calls issued so far, and the edit navigations made. -/
structure MemoListState where
  memoToDelete : Option MemoData
  isDeleteConfirmOpen : Bool
  storeCalls : List StoreCall
  editNavigations : List String
deriving DecidableEq, Repr

/-- A click on a row's Edit button. The platform drops clicks on a
disabled button, so a disabled row leaves the state unchanged; otherwise
`onEditMemo` navigates to the memo form (no store call). -/
def clickEdit (invoiceMap : String → Option String) (st : MemoListState)
    (memo : MemoData) : MemoListState :=
  if (renderRow invoiceMap memo).editDisabled then st
  else { st with editNavigations := st.editNavigations ++ [memo.trips_memo_no] }

/-- A click on a row's Delete button. The platform drops clicks on a
disabled button; otherwise `openDeleteConfirmation` opens the modal
without contacting the store. -/
def clickDelete (invoiceMap : String → Option String) (st : MemoListState)
    (memo : MemoData) : MemoListState :=
  if (renderRow invoiceMap memo).deleteDisabled then st
  else { st with memoToDelete := some memo, isDeleteConfirmOpen := true }

/-- Invariant of the print coordinator before the print-finished signal
has been consumed: listener registered, no post-signal timer pending, no
callback run yet, effect not cleaned up. -/
def printPre (s : PrintState) : Prop :=
  s.listenerRegistered = true ∧ s.onPrintedTimerPending = false
    ∧ s.printedCount = 0 ∧ s.tornDown = false

/-- Invariant of the print coordinator after the signal has been
consumed: the listener is gone and exactly one callback run is either
done or still pending on the 100 ms timer. -/
def printPost (s : PrintState) : Prop :=
  s.listenerRegistered = false
    ∧ s.printedCount + (if s.onPrintedTimerPending then 1 else 0) = 1

/-- The quiescent state after a pre-signal teardown: nothing registered,
nothing pending, callback never run. -/
def printDead (s : PrintState) : Prop :=
  s.listenerRegistered = false ∧ s.printTimerPending = false
    ∧ s.onPrintedTimerPending = false ∧ s.printedCount = 0

/-- The number of callback runs the coordinator can still produce plus
those already produced: listener, pending post-signal timer, and runs so
far each count one. -/
def printBudget (s : PrintState) : Nat :=
  (if s.listenerRegistered then 1 else 0)
    + (if s.onPrintedTimerPending then 1 else 0) + s.printedCount

/-- Fixture: an empty memo list controller state. -/
def emptyListState : MemoListState :=
  { memoToDelete := none, isDeleteConfirmOpen := false, storeCalls := [],
    editNavigations := [] }

/-- Fixture: memo M1 of customer Acme, amount 500. -/
def memoM1 : MemoData :=
  { trips_memo_no := "M1", customers_name := "Acme", trips_vehicle_no := "TN01",
    trip_operated_date1 := "2024-01-01", trips_total_amt := 500, trips_balance := 500 }

/-- Fixture: memo M2 of customer Acme, amount 300. -/
def memoM2 : MemoData :=
  { trips_memo_no := "M2", customers_name := "Acme", trips_vehicle_no := "TN02",
    trip_operated_date1 := "2024-01-02", trips_total_amt := 300, trips_balance := 300 }

/-- Fixture: memo M3 of customer Bob, amount 100. -/
def memoM3 : MemoData :=
  { trips_memo_no := "M3", customers_name := "Bob", trips_vehicle_no := "TN03",
    trip_operated_date1 := "2024-01-03", trips_total_amt := 100, trips_balance := 100 }

/-- Fixture: the memo table holding M1, M2 and M3. -/
def memoTable : List MemoData := [memoM1, memoM2, memoM3]

/-- Fixture: persisted invoice A (id 1) of customer Acme, linked to M1. -/
def invoiceA : Invoice :=
  { id := some 1, invoice_no := "INV-001", invoice_date := "2024-01-05",
    customer_name := "Acme", memo_nos := ["M1"], total_amount := 500,
    amount_paid := 0, balance := 500, status := .Draft }

/-- Fixture: persisted invoice B (id 2) of customer Acme, linked to M2. -/
def invoiceB : Invoice :=
  { id := some 2, invoice_no := "INV-002", invoice_date := "2024-01-06",
    customer_name := "Acme", memo_nos := ["M2"], total_amount := 300,
    amount_paid := 0, balance := 300, status := .Draft }

/-- Fixture: the persisted invoice table holding A and B. -/
def invoiceTable : List Invoice := [invoiceA, invoiceB]

/-- Fixture: an unsaved draft with a fresh number and no customer yet. -/
def draftNew : Invoice :=
  { id := none, invoice_no := "INV-003", invoice_date := "2024-02-01",
    customer_name := "", memo_nos := [], total_amount := 0,
    amount_paid := 0, balance := 0, status := .Draft }

/-- Fixture: a draft failing validation only on the customer name. -/
def draftMissingCustomer : Invoice :=
  { draftNew with memo_nos := ["M3"] }

/-- Fixture: a draft failing validation only on the memo selection. -/
def draftNoMemos : Invoice :=
  { draftNew with customer_name := "Acme" }

/-- Fixture: a valid unsaved draft (customer, date and one memo set). -/
def draftValid : Invoice :=
  { draftNew with customer_name := "Acme", memo_nos := ["M3"] }

/-- Fixture: an unsaved draft that already holds a selected memo,
used to exercise `handleCustomerChange` on a new invoice. -/
def draftWithSelection : Invoice :=
  { draftNew with customer_name := "Acme", memo_nos := ["M1", "M1", "M3"] }

theorem memoTotal_foldl_aux (lookup : MemoLookup) (memoNos : List String) (a : Int) :
    memoNos.foldl
      (fun sum memoNo =>
        sum + (match lookup memoNo with
               | some memo => memo.trips_total_amt
               | none => 0))
      a = a + (memoNos.map (lookupAmt lookup)).sum := by
  induction memoNos generalizing a with
  | nil => simp
  | cons x xs ih =>
    simp only [List.foldl_cons, List.map_cons, List.sum_cons, ih]
    have hx : (match lookup x with
               | some memo => memo.trips_total_amt
               | none => 0) = lookupAmt lookup x := by
      unfold lookupAmt
      cases lookup x <;> simp
    rw [hx]; ring

theorem memoTotal_eq_sum (lookup : MemoLookup) (memoNos : List String) :
    memoTotal lookup memoNos = (memoNos.map (lookupAmt lookup)).sum := by
  unfold memoTotal
  rw [memoTotal_foldl_aux]
  simp

/-- C1: for every selection of memo numbers, every memo lookup table and
every amount-paid value, the totals recomputation sets the invoice's
`total_amount` to the sum of `trips_total_amt` over the selected numbers
(a number absent from the lookup contributing zero) and `balance` to
that total minus `amount_paid`; and the recomputation runs after every
change to the selection or to the amount paid (every `formStep`). -/
theorem C1_totals_recomputation (lookup : MemoLookup) (inv : Invoice) (ev : FormEvent) :
    (calculateTotals lookup inv).total_amount
        = (inv.memo_nos.map (lookupAmt lookup)).sum
  ∧ (calculateTotals lookup inv).balance
        = (calculateTotals lookup inv).total_amount - (calculateTotals lookup inv).amount_paid
  ∧ (formStep lookup inv ev).total_amount
        = ((formStep lookup inv ev).memo_nos.map (lookupAmt lookup)).sum
  ∧ (formStep lookup inv ev).balance
        = (formStep lookup inv ev).total_amount - (formStep lookup inv ev).amount_paid := by
  refine ⟨?_, ?_, ?_, ?_⟩
  · simp [calculateTotals, memoTotal_eq_sum]
  · simp [calculateTotals]
  · cases ev <;>
      simp [formStep, calculateTotals, memoTotal_eq_sum, handleMemoSelection, setAmountPaid]
  · cases ev <;>
      simp [formStep, calculateTotals, handleMemoSelection, setAmountPaid]

/-- C10: toggling a memo number off removes every occurrence of it from
`memo_nos` (it is no longer a member, and other numbers' multiplicities
are untouched), while toggling a number on appends it without a
membership check, so toggling on an already-present number yields a
duplicate entry. -/
theorem C10_toggle_selection (inv : Invoice) (memoNo : String) :
    memoNo ∉ (handleMemoSelection inv memoNo false).memo_nos
  ∧ (∀ m, m ≠ memoNo →
      (handleMemoSelection inv memoNo false).memo_nos.count m = inv.memo_nos.count m)
  ∧ (handleMemoSelection inv memoNo true).memo_nos.count memoNo
      = inv.memo_nos.count memoNo + 1
  ∧ (memoNo ∈ inv.memo_nos →
      2 ≤ (handleMemoSelection inv memoNo true).memo_nos.count memoNo) := by
  have hoff : (handleMemoSelection inv memoNo false).memo_nos
      = inv.memo_nos.filter (fun x => decide (x ≠ memoNo)) := by
    simp [handleMemoSelection]
  have hon : (handleMemoSelection inv memoNo true).memo_nos
      = inv.memo_nos ++ [memoNo] := by
    simp [handleMemoSelection]
  refine ⟨?_, ?_, ?_, ?_⟩
  · rw [hoff]; simp
  · intro m hm
    rw [hoff, List.count_filter]
    simpa using hm
  · rw [hon, List.count_append]
    simp
  · intro h
    have hpos : 0 < inv.memo_nos.count memoNo := List.count_pos_iff.mpr h
    rw [hon, List.count_append]
    have h1 : List.count memoNo [memoNo] = 1 := by simp
    omega

/-- C10 witness: the concrete draft whose selection is [M1, M1, M3] —
toggling M1 off removes both copies, M3's multiplicity is untouched, and
toggling M1 on while present yields at least two entries. -/
theorem C10_toggle_selection_witness :
    "M1" ∉ (handleMemoSelection draftWithSelection ("M1") false).memo_nos
  ∧ (handleMemoSelection draftWithSelection ("M1") false).memo_nos.count ("M3")
      = draftWithSelection.memo_nos.count ("M3")
  ∧ 2 ≤ (handleMemoSelection draftWithSelection ("M1") true).memo_nos.count ("M1") :=
  ⟨(C10_toggle_selection draftWithSelection ("M1")).1,
   (C10_toggle_selection draftWithSelection ("M1")).2.1 ("M3") (by decide),
   (C10_toggle_selection draftWithSelection ("M1")).2.2.2 (by decide)⟩

/-- C3 counterexample: the save guard reports one fixed combined message
whichever condition failed, so the reported notice does not identify the
specific failing reason — a draft missing only the customer and a draft
missing only the memo selection produce identical reports, and no
decoding of the report can recover the spec's specific reason. -/
theorem C3_counterexample :
    validateForSaveSpec draftMissingCustomer = some ValReason.missingCustomer
  ∧ validateForSaveSpec draftNoMemos = some ValReason.noMemosSelected
  ∧ validateSaveCode draftMissingCustomer = validateSaveCode draftNoMemos
  ∧ ¬ ∃ f : String → ValReason,
      ∀ inv : Invoice, (validateSaveCode inv).map f = validateForSaveSpec inv := by
  have heq : validateSaveCode draftMissingCustomer = validateSaveCode draftNoMemos := by decide
  refine ⟨by decide, by decide, heq, ?_⟩
  rintro ⟨f, hf⟩
  have h1 := hf draftMissingCustomer
  have h2 := hf draftNoMemos
  rw [heq] at h1
  exact absurd (h1.symm.trans h2) (by decide)

/-- C3 (amended): Save first validates that the customer name is
non-empty, the date is non-empty and at least one memo is selected; if
any of these fails, the save raises one fixed combined failure notice
(not naming the specific failing condition), performs no store write,
leaves the draft untouched and does not navigate away. -/
theorem C3_validation_blocks_save (inv : Invoice) (store : StoreResult) :
    (validateSaveCode inv = none ↔
      (inv.customer_name ≠ "" ∧ inv.invoice_date ≠ "" ∧ inv.memo_nos ≠ []))
  ∧ (∀ msg, validateSaveCode inv = some msg →
      (handleSave inv store).writes = []
    ∧ (handleSave inv store).invoiceAfter = inv
    ∧ (handleSave inv store).toasts = [(msg, "error")]
    ∧ (handleSave inv store).navigatedToList = false) := by
  constructor
  · rw [validateSaveCode]
    split
    next h =>
      simp only [List.length_eq_zero] at h
      constructor
      · intro hc
        exact absurd hc (by simp)
      · rintro ⟨h1, h2, h3⟩
        rcases h with h | h | h
        · exact absurd h h1
        · exact absurd h h2
        · exact absurd h h3
    next h =>
      push_neg at h
      constructor
      · intro _
        exact ⟨h.1, h.2.1, by simpa using h.2.2⟩
      · intro _
        rfl
  · intro msg hmsg
    simp [handleSave, hmsg]

/-- C3 witness: the amended theorem applied to the concrete draft with a
customer and date but no selected memo. -/
theorem C3_validation_blocks_save_witness :
    (handleSave draftNoMemos StoreResult.success).writes = []
  ∧ (handleSave draftNoMemos StoreResult.success).invoiceAfter = draftNoMemos
  ∧ (handleSave draftNoMemos StoreResult.success).navigatedToList = false :=
  have h := (C3_validation_blocks_save draftNoMemos StoreResult.success).2
    ("Please select a customer, date, and at least one memo.") (by decide)
  ⟨h.1, h.2.1, h.2.2.2⟩

/-- C9: if the store's create-or-update operation fails during save, the
in-memory draft is left unchanged, exactly one failure notice is raised,
and no navigation away from the form occurs, so the user may retry; the
single attempted write carried the unchanged draft. -/
theorem C9_store_failure_preserves_draft (inv : Invoice)
    (hvalid : validateSaveCode inv = none) :
    (handleSave inv StoreResult.failure).invoiceAfter = inv
  ∧ (handleSave inv StoreResult.failure).toasts = [("Failed to save invoice.", "error")]
  ∧ (handleSave inv StoreResult.failure).navigatedToList = false
  ∧ (handleSave inv StoreResult.failure).writes
      = [if inv.id.isSome then StoreWrite.updateInvoice inv else StoreWrite.addInvoice inv] := by
  simp [handleSave, hvalid]

/-- C9 witness: a failed save of the concrete valid draft leaves it
intact, raises the failure notice and stays on the form. -/
theorem C9_store_failure_preserves_draft_witness :
    (handleSave draftValid StoreResult.failure).invoiceAfter = draftValid
  ∧ (handleSave draftValid StoreResult.failure).toasts
      = [("Failed to save invoice.", "error")]
  ∧ (handleSave draftValid StoreResult.failure).navigatedToList = false :=
  have h := C9_store_failure_preserves_draft draftValid (by decide)
  ⟨h.1, h.2.1, h.2.2.1⟩

/-- C4 counterexample: a new (unsaved) draft whose `memo_nos` is
non-empty still accepts a customer change — `handleCustomerChange` is
gated on `invoice.id`, not on the selection being empty — refuting "when
`memo_nos` is non-empty, the customer name cannot change". -/
theorem C4_counterexample :
    draftWithSelection.memo_nos ≠ []
  ∧ draftWithSelection.customer_name = "Acme"
  ∧ (handleCustomerChange memoTable invoiceTable draftWithSelection [] ("Bob")).1.customer_name
      = "Bob" := by
  refine ⟨by decide, by decide, by decide⟩

/-- C4 (amended): changing the customer name is permitted only while the
invoice has no persisted id (a new, unsaved draft) — possible even with
a non-empty selection, in which case the selection is cleared; when
permitted it sets the name, clears `memo_nos` and re-fetches the
eligible memos for the new customer (an empty name clears the available
list); when the invoice has an id, nothing changes. -/
theorem C4_customer_change (memos : List MemoData) (invoices : List Invoice)
    (inv : Invoice) (avail : List MemoData) (name : String) :
    (inv.id.isSome → handleCustomerChange memos invoices inv avail name = (inv, avail))
  ∧ (inv.id = none →
      (handleCustomerChange memos invoices inv avail name).1.customer_name = name
    ∧ (handleCustomerChange memos invoices inv avail name).1.memo_nos = []
    ∧ (name ≠ "" → (handleCustomerChange memos invoices inv avail name).2
          = getUninvoicedMemosForCustomer memos invoices name)
    ∧ (name = "" → (handleCustomerChange memos invoices inv avail name).2 = [])) := by
  constructor
  · intro h
    simp [handleCustomerChange, h]
  · intro h
    have hid : inv.id.isSome = false := by simp [h]
    by_cases hn : name = ""
    · refine ⟨?_, ?_, ?_, ?_⟩ <;> simp [handleCustomerChange, hid, hn]
    · refine ⟨?_, ?_, ?_, ?_⟩ <;> simp [handleCustomerChange, hid, hn]

/-- C4 witness: editing persisted invoice A rejects a customer change;
the new draft with a non-empty selection accepts one, clearing the
selection and re-fetching the new customer's uninvoiced memos. -/
theorem C4_customer_change_witness :
    handleCustomerChange memoTable invoiceTable invoiceA [] ("Bob") = (invoiceA, [])
  ∧ (handleCustomerChange memoTable invoiceTable draftWithSelection [] ("Bob")).1.memo_nos = []
  ∧ (handleCustomerChange memoTable invoiceTable draftWithSelection [] ("Bob")).2
      = getUninvoicedMemosForCustomer memoTable invoiceTable ("Bob") :=
  have h1 := (C4_customer_change memoTable invoiceTable invoiceA [] ("Bob")).1 (by decide)
  have h2 := (C4_customer_change memoTable invoiceTable draftWithSelection [] ("Bob")).2 (by decide)
  ⟨h1, h2.2.1, h2.2.2.1 (by decide)⟩

/-- C5 counterexample: typing `-5` into the amount-paid field stores the
negative value `-5` (`parseFloat(value) || 0` only replaces `NaN`, it
does not clamp negatives), refuting "stores only non-negative values". -/
theorem C5_counterexample :
    (setAmountPaid draftValid ("-5")).amount_paid = -5
  ∧ (setAmountPaid draftValid ("-5")).amount_paid < 0 := by
  refine ⟨by decide, by decide⟩

/-- C5 (amended): SetAmountPaid stores the `parseFloat` of the raw input
— negative values included — with an unparseable (`NaN`) input stored as
0; and every change to the amount paid triggers the totals
recomputation, so the balance equals the recomputed total minus the
stored amount. -/
theorem C5_amount_paid (lookup : MemoLookup) (inv : Invoice) (raw : String) :
    (formStep lookup inv (.setAmountPaidRaw raw)).amount_paid = (parseFloatModel raw).getD 0
  ∧ (formStep lookup inv (.setAmountPaidRaw raw)).total_amount = memoTotal lookup inv.memo_nos
  ∧ (formStep lookup inv (.setAmountPaidRaw raw)).balance
      = memoTotal lookup inv.memo_nos - (parseFloatModel raw).getD 0 := by
  refine ⟨?_, ?_, ?_⟩ <;> simp [formStep, calculateTotals, setAmountPaid]

theorem printStep_post (s : PrintState) (ev : PrintEvent) (h : printPost s)
    (hev : ev ≠ PrintEvent.teardown) : printPost (printStep s ev) := by
  obtain ⟨l, pt, op, c, td⟩ := s
  cases ev <;> cases l <;> cases pt <;> cases op <;> cases td <;>
    simp_all [printStep, printPost]

theorem printRun_post (evs : List PrintEvent) (s : PrintState) (h : printPost s)
    (hnt : PrintEvent.teardown ∉ evs) : printPost (printRun s evs) := by
  induction evs generalizing s with
  | nil => exact h
  | cons x xs ih =>
      have hx : x ≠ PrintEvent.teardown := by
        rintro rfl; exact hnt (List.mem_cons_self _ _)
      have hxs : PrintEvent.teardown ∉ xs := fun hm => hnt (List.mem_cons_of_mem _ hm)
      exact ih (printStep s x) (printStep_post s x h hx) hxs

theorem printStep_pre (s : PrintState) (ev : PrintEvent) (h : printPre s)
    (hev : ev ≠ PrintEvent.teardown) :
    (ev ≠ PrintEvent.fireAfterprint ∧ printPre (printStep s ev))
      ∨ (ev = PrintEvent.fireAfterprint ∧ printPost (printStep s ev)) := by
  obtain ⟨l, pt, op, c, td⟩ := s
  cases ev with
  | firePrintTimer =>
      left
      refine ⟨by simp, ?_⟩
      cases pt <;> simp_all [printStep, printPre]
  | fireAfterprint =>
      right
      refine ⟨rfl, ?_⟩
      simp_all [printStep, printPre, printPost]
  | fireOnPrintedTimer =>
      left
      refine ⟨by simp, ?_⟩
      cases op <;> simp_all [printStep, printPre]
  | teardown => exact absurd rfl hev

theorem printRun_pre_or_post (evs : List PrintEvent) (s : PrintState) (h : printPre s)
    (hnt : PrintEvent.teardown ∉ evs) :
    (PrintEvent.fireAfterprint ∉ evs ∧ printPre (printRun s evs))
      ∨ printPost (printRun s evs) := by
  induction evs generalizing s with
  | nil => exact Or.inl ⟨by simp, h⟩
  | cons x xs ih =>
      have hx : x ≠ PrintEvent.teardown := by
        rintro rfl; exact hnt (List.mem_cons_self _ _)
      have hxs : PrintEvent.teardown ∉ xs := fun hm => hnt (List.mem_cons_of_mem _ hm)
      have hstep : printRun s (x :: xs) = printRun (printStep s x) xs := rfl
      rcases printStep_pre s x h hx with ⟨hxa, hpre⟩ | ⟨-, hpost⟩
      · rcases ih (printStep s x) hpre hxs with ⟨hna, hp⟩ | hp
        · left
          refine ⟨?_, by rw [hstep]; exact hp⟩
          intro hm
          rcases List.mem_cons.mp hm with h1 | h1
          · exact hxa h1.symm
          · exact hna h1
        · right; rw [hstep]; exact hp
      · right
        rw [hstep]
        exact printRun_post xs (printStep s x) hpost hxs

theorem printRun_pre (evs : List PrintEvent) (s : PrintState) (h : printPre s)
    (ha : PrintEvent.fireAfterprint ∉ evs) (hnt : PrintEvent.teardown ∉ evs) :
    printPre (printRun s evs) := by
  induction evs generalizing s with
  | nil => exact h
  | cons x xs ih =>
      have hx : x ≠ PrintEvent.teardown := by
        rintro rfl; exact hnt (List.mem_cons_self _ _)
      have hxs : PrintEvent.teardown ∉ xs := fun hm => hnt (List.mem_cons_of_mem _ hm)
      have hxa : PrintEvent.fireAfterprint ∉ xs := fun hm => ha (List.mem_cons_of_mem _ hm)
      rcases printStep_pre s x h hx with ⟨-, hpre⟩ | ⟨hxeq, -⟩
      · exact ih (printStep s x) hpre hxa hxs
      · exact absurd (hxeq ▸ List.mem_cons_self _ _) ha

theorem printStep_dead (s : PrintState) (ev : PrintEvent) (h : printDead s) :
    printDead (printStep s ev) := by
  obtain ⟨l, pt, op, c, td⟩ := s
  cases ev <;> cases td <;> simp_all [printStep, printDead]

theorem printRun_dead (evs : List PrintEvent) (s : PrintState) (h : printDead s) :
    printDead (printRun s evs) := by
  induction evs generalizing s with
  | nil => exact h
  | cons x xs ih => exact ih (printStep s x) (printStep_dead s x h)

theorem printTeardown_dead (s : PrintState) (h : printPre s) :
    printDead (printStep s PrintEvent.teardown) := by
  obtain ⟨l, pt, op, c, td⟩ := s
  simp_all [printStep, printPre, printDead]

theorem printStep_budget (s : PrintState) (ev : PrintEvent) :
    printBudget (printStep s ev) ≤ printBudget s := by
  obtain ⟨l, pt, op, c, td⟩ := s
  cases ev <;> cases l <;> cases pt <;> cases op <;> cases td <;>
    simp [printStep, printBudget] <;> omega

theorem printRun_budget (evs : List PrintEvent) (s : PrintState) :
    printBudget (printRun s evs) ≤ printBudget s := by
  induction evs generalizing s with
  | nil => exact Nat.le_refl _
  | cons x xs ih => exact Nat.le_trans (ih (printStep s x)) (printStep_budget s x)

theorem printedCount_le_budget (s : PrintState) : s.printedCount ≤ printBudget s := by
  obtain ⟨l, pt, op, c, td⟩ := s
  cases l <;> cases op <;> simp [printBudget]

/-- C6: in download mode, once the load has settled and the
print-finished signal fires, the completion callback runs exactly once —
even when the signal fires repeatedly, because the registered listener
removes itself on its first run: over any teardown-free event sequence
containing the signal, at most one callback run has happened, and after
the 100 ms timer fires the count is exactly one. -/
theorem C6_print_callback_once (evs : List PrintEvent)
    (hsig : PrintEvent.fireAfterprint ∈ evs)
    (hnt : PrintEvent.teardown ∉ evs) :
    (printRun printInit evs).printedCount ≤ 1
  ∧ (printRun printInit (evs ++ [PrintEvent.fireOnPrintedTimer])).printedCount = 1 := by
  have hpre : printPre printInit := ⟨rfl, rfl, rfl, rfl⟩
  have hpost : printPost (printRun printInit evs) := by
    rcases printRun_pre_or_post evs printInit hpre hnt with ⟨hna, -⟩ | hp
    · exact absurd hsig hna
    · exact hp
  obtain ⟨hl, hcnt⟩ := hpost
  have happ : printRun printInit (evs ++ [PrintEvent.fireOnPrintedTimer])
      = printStep (printRun printInit evs) PrintEvent.fireOnPrintedTimer := by
    simp [printRun, List.foldl_append]
  constructor
  · by_cases hp : (printRun printInit evs).onPrintedTimerPending
    · simp [hp] at hcnt; omega
    · simp [hp] at hcnt; omega
  · rw [happ]
    unfold printStep
    by_cases hp : (printRun printInit evs).onPrintedTimerPending
    · simp [hp] at hcnt ⊢; omega
    · simp [hp] at hcnt ⊢; omega

/-- C6 witness: a concrete run where the signal fires twice — the
listener's first run removes it, so after the pending timer fires the
callback count is exactly one. -/
theorem C6_print_callback_once_witness :
    (printRun printInit
      [PrintEvent.firePrintTimer, PrintEvent.fireAfterprint,
       PrintEvent.fireAfterprint]).printedCount ≤ 1
  ∧ (printRun printInit
      ([PrintEvent.firePrintTimer, PrintEvent.fireAfterprint,
        PrintEvent.fireAfterprint] ++ [PrintEvent.fireOnPrintedTimer])).printedCount = 1 :=
  C6_print_callback_once
    [PrintEvent.firePrintTimer, PrintEvent.fireAfterprint, PrintEvent.fireAfterprint]
    (by decide) (by decide)

/-- C7 counterexample: tear the coordinator down right after the
print-finished signal. The 100 ms timer scheduled by `handleAfterPrint`
is not cleared by the effect cleanup (which clears only the 300 ms print
timer and the listener), so a coordinator-created timer is still pending
after teardown and, when it fires, runs the completion callback after
teardown — refuting "no timer it created fires after teardown,
including the delay timer scheduled after the print-finished signal". -/
theorem C7_counterexample :
    (printRun printInit [PrintEvent.fireAfterprint, PrintEvent.teardown]).tornDown = true
  ∧ (printRun printInit [PrintEvent.fireAfterprint,
        PrintEvent.teardown]).onPrintedTimerPending = true
  ∧ (printRun printInit [PrintEvent.fireAfterprint, PrintEvent.teardown,
        PrintEvent.fireOnPrintedTimer]).printedCount = 1 := by
  refine ⟨by decide, by decide, by decide⟩

/-- C7 (amended): if the coordinator is torn down before the
print-finished signal fires, the cleanup cancels the listener and the
pending print-invocation timer, so the completion callback never runs
and no timer of the coordinator remains pending after teardown; in every
run the callback fires at most once. (The 100 ms post-signal timer is
not cancelled by teardown, so a teardown after the signal can still be
followed by one callback run — the behaviour the counterexample
exhibits.) -/
theorem C7_teardown_cleanup (evs1 evs2 : List PrintEvent)
    (hsig : PrintEvent.fireAfterprint ∉ evs1)
    (htd : PrintEvent.teardown ∉ evs1) :
    (printRun printInit (evs1 ++ PrintEvent.teardown :: evs2)).printedCount = 0
  ∧ (printRun printInit (evs1 ++ PrintEvent.teardown :: evs2)).onPrintedTimerPending = false
  ∧ (printRun printInit (evs1 ++ PrintEvent.teardown :: evs2)).printTimerPending = false
  ∧ (printRun printInit (evs1 ++ PrintEvent.teardown :: evs2)).listenerRegistered = false
  ∧ ∀ evs : List PrintEvent, (printRun printInit evs).printedCount ≤ 1 := by
  have hpre1 : printPre (printRun printInit evs1) :=
    printRun_pre evs1 printInit ⟨rfl, rfl, rfl, rfl⟩ hsig htd
  have hsplit : printRun printInit (evs1 ++ PrintEvent.teardown :: evs2)
      = printRun (printStep (printRun printInit evs1) PrintEvent.teardown) evs2 := by
    simp [printRun, List.foldl_append]
  have hdead := printRun_dead evs2 _ (printTeardown_dead _ hpre1)
  rw [hsplit]
  obtain ⟨d1, d2, d3, d4⟩ := hdead
  refine ⟨d4, d3, d2, d1, ?_⟩
  intro evs
  have hb := printRun_budget evs printInit
  have hc := printedCount_le_budget (printRun printInit evs)
  have hinit : printBudget printInit = 1 := rfl
  omega

/-- C7 witness: a concrete pre-signal teardown — the callback never runs
afterwards, nothing stays pending, and the at-most-once bound holds on a
run where the callback does fire. -/
theorem C7_teardown_cleanup_witness :
    (printRun printInit ([PrintEvent.firePrintTimer] ++ PrintEvent.teardown ::
        [PrintEvent.fireOnPrintedTimer, PrintEvent.fireAfterprint])).printedCount = 0
  ∧ (printRun printInit ([PrintEvent.firePrintTimer] ++ PrintEvent.teardown ::
        [PrintEvent.fireOnPrintedTimer, PrintEvent.fireAfterprint])).onPrintedTimerPending
      = false
  ∧ (printRun printInit [PrintEvent.fireAfterprint,
        PrintEvent.fireOnPrintedTimer]).printedCount ≤ 1 :=
  have h := C7_teardown_cleanup [PrintEvent.firePrintTimer]
    [PrintEvent.fireOnPrintedTimer, PrintEvent.fireAfterprint] (by decide) (by decide)
  ⟨h.1, h.2.1, h.2.2.2.2 [PrintEvent.fireAfterprint, PrintEvent.fireOnPrintedTimer]⟩

theorem mapSetFold_isSome_mono (v : String) (L : List String)
    (acc : String → Option String) (k : String) (h : (acc k).isSome) :
    ((L.foldl (fun acc2 memoNo => mapSet acc2 memoNo v) acc) k).isSome := by
  induction L generalizing acc with
  | nil => exact h
  | cons x xs ih =>
      apply ih
      by_cases hx : (k == x) = true <;> simp [mapSet, hx, h]

theorem mapSetFold_isSome_of_mem (v : String) (L : List String)
    (acc : String → Option String) (k : String) (hk : k ∈ L) :
    ((L.foldl (fun acc2 memoNo => mapSet acc2 memoNo v) acc) k).isSome := by
  induction L generalizing acc with
  | nil => cases hk
  | cons x xs ih =>
      rcases List.mem_cons.mp hk with rfl | hmem
      · exact mapSetFold_isSome_mono v xs _ k (by simp [mapSet])
      · exact ih _ hmem

theorem invoiceMapAdd_isSome_mono (i : Invoice) (acc : String → Option String)
    (k : String) (h : (acc k).isSome) : ((invoiceMapAdd i acc) k).isSome :=
  mapSetFold_isSome_mono i.invoice_no i.memo_nos acc k h

theorem invoiceMapAdd_isSome_of_mem (i : Invoice) (acc : String → Option String)
    (k : String) (hk : k ∈ i.memo_nos) : ((invoiceMapAdd i acc) k).isSome :=
  mapSetFold_isSome_of_mem i.invoice_no i.memo_nos acc k hk

theorem invoiceFold_isSome (invoices : List Invoice) (acc : String → Option String)
    (k : String)
    (h : (∃ A ∈ invoices, k ∈ A.memo_nos) ∨ (acc k).isSome) :
    ((invoices.foldl (fun a i => invoiceMapAdd i a) acc) k).isSome := by
  induction invoices generalizing acc with
  | nil =>
      rcases h with ⟨A, hA, -⟩ | h
      · cases hA
      · exact h
  | cons i is ih =>
      rcases h with ⟨A, hA, hk⟩ | h
      · rcases List.mem_cons.mp hA with rfl | hmem
        · exact ih _ (Or.inr (invoiceMapAdd_isSome_of_mem _ _ _ hk))
        · exact ih _ (Or.inl ⟨A, hmem, hk⟩)
      · exact ih _ (Or.inr (invoiceMapAdd_isSome_mono _ _ _ h))

theorem buildInvoiceMap_isSome (invoices : List Invoice) (A : Invoice) (k : String)
    (hA : A ∈ invoices) (hk : k ∈ A.memo_nos) :
    (buildInvoiceMap invoices k).isSome :=
  invoiceFold_isSome invoices _ k (Or.inl ⟨A, hA, hk⟩)

/-- C8: for every memo whose number is linked in some persisted invoice
(so the invoicing map contains it), the memo list controller renders the
Edit and Delete actions disabled with the specific already-invoiced
reason as their tooltip, and clicks on either action change nothing and
issue no call to the store. -/
theorem C8_invoiced_memo_actions_gated (invoices : List Invoice) (A : Invoice)
    (memo : MemoData) (st : MemoListState)
    (hA : A ∈ invoices) (hlink : memo.trips_memo_no ∈ A.memo_nos) :
    (renderRow (buildInvoiceMap invoices) memo).editDisabled = true
  ∧ (renderRow (buildInvoiceMap invoices) memo).editTitle
      = "Cannot edit a memo that is part of an invoice."
  ∧ (renderRow (buildInvoiceMap invoices) memo).deleteDisabled = true
  ∧ (renderRow (buildInvoiceMap invoices) memo).deleteTitle
      = "Cannot delete a memo that is part of an invoice."
  ∧ clickEdit (buildInvoiceMap invoices) st memo = st
  ∧ clickDelete (buildInvoiceMap invoices) st memo = st
  ∧ (clickDelete (buildInvoiceMap invoices) st memo).storeCalls = st.storeCalls := by
  have hsome := buildInvoiceMap_isSome invoices A memo.trips_memo_no hA hlink
  refine ⟨?_, ?_, ?_, ?_, ?_, ?_, ?_⟩ <;>
    simp [renderRow, clickEdit, clickDelete, hsome]

/-- C8 witness: memo M1 is linked in persisted invoice A, so its list row
disables Edit and Delete and clicking Delete leaves the controller state
(and its store-call log) unchanged. -/
theorem C8_invoiced_memo_actions_gated_witness :
    (renderRow (buildInvoiceMap invoiceTable) memoM1).editDisabled = true
  ∧ (renderRow (buildInvoiceMap invoiceTable) memoM1).deleteDisabled = true
  ∧ clickDelete (buildInvoiceMap invoiceTable) emptyListState memoM1 = emptyListState :=
  have h := C8_invoiced_memo_actions_gated invoiceTable invoiceA memoM1 emptyListState
    (by decide) (by decide)
  ⟨h.1, h.2.2.1, h.2.2.2.2.2.1⟩

theorem buildMemoMap_some (memos : List MemoData) (k : String) (m : MemoData)
    (h : buildMemoMap memos k = some m) : m.trips_memo_no = k ∧ m ∈ memos := by
  unfold buildMemoMap at h
  constructor
  · have := List.find?_some h
    simpa using this
  · have := List.mem_of_find?_eq_some h
    simpa using this

theorem buildMemoMap_isSome_of_mem (memos : List MemoData) (m : MemoData)
    (hm : m ∈ memos) : (buildMemoMap memos m.trips_memo_no).isSome := by
  unfold buildMemoMap
  exact List.find?_isSome.mpr ⟨m, by simpa using hm, by simp⟩

theorem uninvoiced_excludes_linked (memos : List MemoData) (invoices : List Invoice)
    (c : String) (A : Invoice) (memoNo : String)
    (hA : A ∈ invoices) (hlink : memoNo ∈ A.memo_nos) :
    ∀ d ∈ getUninvoicedMemosForCustomer memos invoices c, d.trips_memo_no ≠ memoNo := by
  intro d hd heq
  unfold getUninvoicedMemosForCustomer at hd
  rw [List.mem_filter] at hd
  obtain ⟨-, hcond⟩ := hd
  rw [Bool.and_eq_true] at hcond
  obtain ⟨-, hnot⟩ := hcond
  rw [Bool.not_eq_true'] at hnot
  have hany : invoices.any (fun i => i.memo_nos.contains d.trips_memo_no) = true := by
    rw [List.any_eq_true]
    refine ⟨A, hA, ?_⟩
    rw [heq]
    exact List.elem_eq_true_of_mem hlink
  rw [hany] at hnot
  cases hnot

theorem displayStep_mono (lookup : MemoLookup) (ds : List MemoData) (n : String)
    (d : MemoData) (hd : d ∈ ds) : d ∈ displayStep lookup ds n := by
  unfold displayStep
  split
  · exact hd
  · cases h : lookup n <;> simp [hd]

theorem displayFold_mono (lookup : MemoLookup) (L : List String) (acc : List MemoData)
    (d : MemoData) (hd : d ∈ acc) : d ∈ L.foldl (displayStep lookup) acc := by
  induction L generalizing acc with
  | nil => exact hd
  | cons x xs ih => exact ih _ (displayStep_mono lookup acc x d hd)

theorem displayStep_mem (lookup : MemoLookup) (ds : List MemoData) (n : String)
    (d : MemoData) (hd : d ∈ displayStep lookup ds n) :
    d ∈ ds ∨ lookup n = some d := by
  unfold displayStep at hd
  split at hd
  · exact Or.inl hd
  · cases h : lookup n with
    | none => rw [h] at hd; exact Or.inl hd
    | some m =>
        rw [h] at hd
        rcases List.mem_append.mp hd with h1 | h1
        · exact Or.inl h1
        · have : d = m := by simpa using h1
          subst this
          exact Or.inr rfl

theorem displayFold_mem (lookup : MemoLookup) (L : List String) (acc : List MemoData)
    (d : MemoData) (hd : d ∈ L.foldl (displayStep lookup) acc) :
    d ∈ acc ∨ ∃ n ∈ L, lookup n = some d := by
  induction L generalizing acc with
  | nil => exact Or.inl hd
  | cons x xs ih =>
      rcases ih (displayStep lookup acc x) hd with h1 | ⟨n, hn, hlook⟩
      · rcases displayStep_mem lookup acc x d h1 with h2 | h2
        · exact Or.inl h2
        · exact Or.inr ⟨x, List.mem_cons_self _ _, h2⟩
      · exact Or.inr ⟨n, List.mem_cons_of_mem _ hn, hlook⟩

theorem displayFold_covers (lookup : MemoLookup) (L : List String) (k : String)
    (hk : k ∈ L) :
    ∀ acc : List MemoData, (∃ m, lookup k = some m ∧ m.trips_memo_no = k) →
      ∃ d ∈ L.foldl (displayStep lookup) acc, d.trips_memo_no = k := by
  induction L with
  | nil => cases hk
  | cons x xs ih =>
      intro acc hsome
      rcases List.mem_cons.mp hk with rfl | hmem
      · by_cases hany : acc.any (fun m => m.trips_memo_no == k) = true
        · rw [List.any_eq_true] at hany
          obtain ⟨d, hdacc, hdno⟩ := hany
          have hdno2 : d.trips_memo_no = k := by simpa using hdno
          exact ⟨d, displayFold_mono lookup xs _ d (displayStep_mono lookup acc k d hdacc),
            hdno2⟩
        · obtain ⟨m, hm, hmno⟩ := hsome
          have hstep : displayStep lookup acc k = acc ++ [m] := by
            unfold displayStep
            rw [if_neg hany, hm]
          have hmem2 : m ∈ displayStep lookup acc k := by
            rw [hstep]; simp
          exact ⟨m, displayFold_mono lookup xs _ m hmem2, hmno⟩
      · exact ih hmem (displayStep lookup acc x) hsome

/-- C2: a memo linked to persisted invoice A never appears in the memo
set displayed while creating a fresh invoice or editing a different
persisted invoice B, but does appear — pre-checked — while editing A
itself, in addition to all of the customer's uninvoiced memos. (The
store-side `getUninvoicedMemosForCustomer` is modelled from the spec;
the hypothesis that A's memo number is absent from B's selection is the
spec's one-memo-one-invoice linkage invariant for B ≠ A.) -/
theorem C2_eligibility (memos : List MemoData) (invoices : List Invoice)
    (A B C : Invoice) (memoNo : String) (m : MemoData)
    (hA : A ∈ invoices) (hlinkA : memoNo ∈ A.memo_nos)
    (hm : m ∈ memos) (hmno : m.trips_memo_no = memoNo)
    (hAid : A.id.isSome) (hBid : B.id.isSome)
    (hBnot : memoNo ∉ B.memo_nos) (hCid : C.id = none) :
    (∀ d ∈ displayMemos (getUninvoicedMemosForCustomer memos invoices C.customer_name)
        (buildMemoMap memos) C, d.trips_memo_no ≠ memoNo)
  ∧ (∀ d ∈ displayMemos (getUninvoicedMemosForCustomer memos invoices B.customer_name)
        (buildMemoMap memos) B, d.trips_memo_no ≠ memoNo)
  ∧ (∃ d ∈ displayMemos (getUninvoicedMemosForCustomer memos invoices A.customer_name)
        (buildMemoMap memos) A, d.trips_memo_no = memoNo ∧ memoChecked A d = true)
  ∧ (∀ d ∈ getUninvoicedMemosForCustomer memos invoices A.customer_name,
        d ∈ displayMemos (getUninvoicedMemosForCustomer memos invoices A.customer_name)
          (buildMemoMap memos) A) := by
  have hCsome : C.id.isSome = false := by simp [hCid]
  refine ⟨?_, ?_, ?_, ?_⟩
  · intro d hd
    rw [displayMemos, hCsome] at hd
    simp only [Bool.false_eq_true, if_false] at hd
    exact uninvoiced_excludes_linked memos invoices C.customer_name A memoNo hA hlinkA d hd
  · intro d hd
    rw [displayMemos, hBid] at hd
    simp only [if_true] at hd
    rcases displayFold_mem (buildMemoMap memos) B.memo_nos _ d hd with h1 | ⟨n, hn, hlook⟩
    · exact uninvoiced_excludes_linked memos invoices B.customer_name A memoNo hA hlinkA d h1
    · intro heq
      have := (buildMemoMap_some memos n d hlook).1
      rw [heq] at this
      rw [← this] at hn
      exact hBnot hn
  · rw [displayMemos, hAid]
    simp only [if_true]
    have hisSome : (buildMemoMap memos memoNo).isSome := by
      rw [← hmno]
      exact buildMemoMap_isSome_of_mem memos m hm
    obtain ⟨m2, hm2⟩ := Option.isSome_iff_exists.mp hisSome
    have hm2no : m2.trips_memo_no = memoNo := (buildMemoMap_some memos memoNo m2 hm2).1
    obtain ⟨d, hd, hdno⟩ := displayFold_covers (buildMemoMap memos) A.memo_nos memoNo
      hlinkA (getUninvoicedMemosForCustomer memos invoices A.customer_name) ⟨m2, hm2, hm2no⟩
    refine ⟨d, hd, hdno, ?_⟩
    unfold memoChecked
    rw [hdno]
    exact List.elem_eq_true_of_mem hlinkA
  · intro d hd
    rw [displayMemos, hAid]
    simp only [if_true]
    exact displayFold_mono (buildMemoMap memos) A.memo_nos _ d hd

/-- C2 witness: in the concrete tables, memo M1 is linked to persisted
invoice A: it is absent from the display for a fresh draft and for
persisted invoice B, present and pre-checked while editing A, and A's
display still includes every uninvoiced memo of its customer. -/
theorem C2_eligibility_witness :
    (∀ d ∈ displayMemos (getUninvoicedMemosForCustomer memoTable invoiceTable
        draftNew.customer_name) (buildMemoMap memoTable) draftNew,
        d.trips_memo_no ≠ "M1")
  ∧ (∀ d ∈ displayMemos (getUninvoicedMemosForCustomer memoTable invoiceTable
        invoiceB.customer_name) (buildMemoMap memoTable) invoiceB,
        d.trips_memo_no ≠ "M1")
  ∧ (∃ d ∈ displayMemos (getUninvoicedMemosForCustomer memoTable invoiceTable
        invoiceA.customer_name) (buildMemoMap memoTable) invoiceA,
        d.trips_memo_no = "M1" ∧ memoChecked invoiceA d = true)
  ∧ (∀ d ∈ getUninvoicedMemosForCustomer memoTable invoiceTable invoiceA.customer_name,
        d ∈ displayMemos (getUninvoicedMemosForCustomer memoTable invoiceTable
          invoiceA.customer_name) (buildMemoMap memoTable) invoiceA) :=
  C2_eligibility memoTable invoiceTable invoiceA invoiceB draftNew ("M1") memoM1
    (by decide) (by decide) (by decide) (by decide) (by decide) (by decide)
    (by decide) (by decide)

end SBT
